import Mathlib

/-!
# Verification of the vscode-status extension core

Shallow embedding of the vscode-status extension (`src/extension.ts`,
`src/activity.ts`, `src/apiClient.ts`, `src/util.ts`, `src/constants.ts`)
and proofs about its template resolver, file-size formatting, submission
protocol, notification policy and update scheduler.

Strings are modelled as `List Char` (`Str`).  JavaScript
`String.prototype.replace` with a string pattern replaces only the first
occurrence of the pattern; the model (`replaceFirst`) reproduces that.
`$`-escape sequences in the replacement argument of `replace` are not
modelled (no replacement value used in a theorem below contains `$`).
-/

set_option maxHeartbeats 1000000

abbrev Str := List Char

/-- Model of JavaScript `s.includes(pat)`. -/
def strIncludes : Str → Str → Bool
  | [], pat => pat.isEmpty
  | c :: rest, pat => pat.isPrefixOf (c :: rest) || strIncludes rest pat

/-- Recursive worker for `replaceFirst` (nonempty pattern). -/
def replaceFirstGo (pat rep : Str) : Str → Str
  | [] => []
  | c :: rest =>
    if pat.isPrefixOf (c :: rest) then rep ++ List.drop pat.length (c :: rest)
    else c :: replaceFirstGo pat rep rest

/-- Model of JavaScript `s.replace(pat, rep)` with a string `pat`:
replaces only the first occurrence of `pat` in `s`. -/
def replaceFirst (s pat rep : Str) : Str :=
  if pat.isEmpty then rep ++ s else replaceFirstGo pat rep s

/-- Decimal digit string of a natural number. -/
def natToStr (n : Nat) : Str := (Nat.repr n).toList

/-- Worker inserting a comma after every third character (input reversed). -/
def commaGroupRev : Str → Str
  | a :: b :: c :: d :: rest => a :: b :: c :: ',' :: commaGroupRev (d :: rest)
  | s => s

/-- Model of JavaScript `n.toLocaleString()` for a nonnegative integer in the
default `en-US` locale: decimal digits with thousands separators. -/
def toLocaleString (n : Nat) : Str := (commaGroupRev (natToStr n).reverse).reverse

/-- Model of `toLower` in `util.ts` (`str.toLocaleLowerCase()`). -/
def toLower (s : Str) : Str := s.map Char.toLower

/-- Model of `toUpper` in `util.ts` (`str.toLocaleUpperCase()`). -/
def toUpper (s : Str) : Str := s.map Char.toUpper

/-- JavaScript regex `\w` word-character class (ASCII letters, digits, `_`). -/
def isWordChar (c : Char) : Bool := c.isAlphanum || c == '_'

/-- Model of `toTitle` in `util.ts`:
`toLower(str).replace(/^\w/, (char) => toUpper(char))`. -/
def toTitle (s : Str) : Str :=
  match toLower s with
  | [] => []
  | c :: rest => if isWordChar c then Char.toUpper c :: rest else c :: rest

/-! ## Constants from `constants.ts` -/

/-- `EMPTY = ''`. -/
def EMPTY : Str := []

/-- `FAKE_EMPTY` is two zero-width-space characters (U+200B). -/
def FAKE_EMPTY : Str := ['\u200B', '\u200B']

/-- `FILE_SIZES = [' bytes', 'KB', 'MB', 'GB', 'TB']`. -/
def FILE_SIZES : List Str :=
  [" bytes".toList, "KB".toList, "MB".toList, "GB".toList, "TB".toList]

/-- `UNKNOWN_GIT_BRANCH = 'Unknown'`. -/
def UNKNOWN_GIT_BRANCH : Str := "Unknown".toList

/-- `UNKNOWN_GIT_REPO_NAME = 'Unknown'`. -/
def UNKNOWN_GIT_REPO_NAME : Str := "Unknown".toList

namespace REPLACE_KEYS

def AppName : Str := "\x7bapp_name\x7d".toList

def CurrentColumn : Str := "\x7bcurrent_column\x7d".toList

def CurrentLine : Str := "\x7bcurrent_line\x7d".toList

def DirName : Str := "\x7bdir_name\x7d".toList

def Empty : Str := "\x7bempty\x7d".toList

def FileName : Str := "\x7bfile_name\x7d".toList

def FileSize : Str := "\x7bfile_size\x7d".toList

def FullDirName : Str := "\x7bfull_dir_name\x7d".toList

def GitBranch : Str := "\x7bgit_branch\x7d".toList

def GitRepoName : Str := "\x7bgit_repo_name\x7d".toList

def LanguageLowerCase : Str := "\x7blang\x7d".toList

def LanguageTitleCase : Str := "\x7bLang\x7d".toList

def LanguageUpperCase : Str := "\x7bLANG\x7d".toList

def TotalLines : Str := "\x7btotal_lines\x7d".toList

def VSCodeWorkspace : Str := "(Workspace)".toList

def Workspace : Str := "\x7bworkspace\x7d".toList

def WorkspaceAndFolder : Str := "\x7bworkspace_and_folder\x7d".toList

def WorkspaceFolder : Str := "\x7bworkspace_folder\x7d".toList

end REPLACE_KEYS

/-! ## File-size rendering (`activity.ts`, `fileDetails`, `{file_size}` branch)

The JavaScript code divides a `number` by 1000 while it exceeds 1000.  The
model performs the same loop in exact arithmetic: the running value is the
nonnegative rational `num / den`, kept as an unreduced pair of naturals
(the concrete values appearing in the theorems below are all exactly
representable as binary doubles, so the exact loop agrees with the
floating-point one there).  The loop consumes at least one unit of fuel per
iteration, so fuel `n` always suffices for input `n`. -/

/-- An unreduced nonnegative fraction `num / den`, the exact value of the
JavaScript `size` variable. -/
structure Frac where
  num : Nat
  den : Nat
deriving DecidableEq

/-- `size > 1_000` on the exact value. -/
def Frac.gt1000 (x : Frac) : Bool := 1000 * x.den < x.num

/-- `size /= 1_000` on the exact value. -/
def Frac.div1000 (x : Frac) : Frac := ⟨x.num, x.den * 1000⟩

/-- The `while (size > 1_000) { currentDivision++; size /= 1_000; }` loop:
returns the number of divisions performed and the final value. -/
def fsLoop : Nat → Frac → Nat × Frac
  | 0, q => (0, q)
  | Nat.succ f, q =>
    if q.gt1000 then
      let p := fsLoop f q.div1000
      (p.1 + 1, p.2)
    else (0, q)

/-- Model of JavaScript `x.toFixed(2)` for a nonnegative value: round half up
to two decimal places.  `⌊100 * num / den + 1 / 2⌋ = (200 * num + den) / (2 * den)`
in natural-number division. -/
def toFixed2 (x : Frac) : Str :=
  let m : Nat := (200 * x.num + x.den) / (2 * x.den)
  natToStr (m / 100) ++ ['.'] ++ (if m % 100 < 10 then ['0'] else []) ++ natToStr (m % 100)

/-- The `{file_size}` replacement value computed by `fileDetails` for a file
of `n` bytes.  An out-of-range index into `FILE_SIZES` yields the string
`"undefined"`, as JavaScript template interpolation renders `undefined`. -/
def fileSizeText (n : Nat) : Str :=
  let dq : Nat × Frac :=
    if n > 1000 then
      let p := fsLoop n ⟨n, 1000⟩
      (p.1 + 1, p.2)
    else (0, ⟨n, 1⟩)
  (if n > 1000 then toFixed2 dq.2 else natToStr n) ++ FILE_SIZES.getD dq.1 "undefined".toList

/-! ## Template resolution (`activity.ts`, `fileDetails` and `details`)

Host-editor, document, selection and version-control facts are supplied by
external collaborators (the `vscode` API, `node:path`, the git extension);
they enter the model as fields of `DetailsCtx`.  The I/O fallback for the
file size (`workspace.fs.stat` vs. `document.getText().length`) is resolved
externally into `fileSizeBytes`, and the `try`/`catch` around `fileDetails`
is not modelled (the embedded functions are total). -/

/-- The path separator `sep` from `node:path` (POSIX form). -/
def pathSep : Char := '/'

/-- Editor/document/version-control facts consumed by `details`. -/
structure DetailsCtx where
  hasActiveEditor : Bool
  isDebugging : Bool
  lineCountVal : Nat
  cursorLine : Nat
  cursorChar : Nat
  fileSizeBytes : Nat
  hasGitRepos : Bool
  selectedRepo : Bool
  headBranchName : Option Str
  remoteFetchUrl : Option Str
  fileName : Str
  dirName : Str
  workspaceFolder : Option Str
  wsName : Option Str
  relativePathSegments : List Str
  fileIcon : Str
deriving DecidableEq

/-- The `{git_repo_name}` optional chain
`repo?.state.remotes[0]?.fetchUrl?.split('/')[1]?.replace('.git', '')`. -/
def repoNameChain (ctx : DetailsCtx) : Option Str :=
  if ctx.selectedRepo then
    ctx.remoteFetchUrl.bind fun u =>
      ((u.splitOn pathSep)[1]?).map fun seg => replaceFirst seg ".git".toList EMPTY
  else none

/-- Model of `fileDetails` in `activity.ts`. -/
def fileDetails (raw0 : Str) (ctx : DetailsCtx) : Str :=
  let raw1 :=
    if strIncludes raw0 REPLACE_KEYS.TotalLines then
      replaceFirst raw0 REPLACE_KEYS.TotalLines (toLocaleString ctx.lineCountVal)
    else raw0
  let raw2 :=
    if strIncludes raw1 REPLACE_KEYS.CurrentLine then
      replaceFirst raw1 REPLACE_KEYS.CurrentLine (toLocaleString (ctx.cursorLine + 1))
    else raw1
  let raw3 :=
    if strIncludes raw2 REPLACE_KEYS.CurrentColumn then
      replaceFirst raw2 REPLACE_KEYS.CurrentColumn (toLocaleString (ctx.cursorChar + 1))
    else raw2
  let raw4 :=
    if strIncludes raw3 REPLACE_KEYS.FileSize then
      replaceFirst raw3 REPLACE_KEYS.FileSize (fileSizeText ctx.fileSizeBytes)
    else raw3
  let raw5 :=
    if strIncludes raw4 REPLACE_KEYS.GitBranch then
      if ctx.hasGitRepos then
        replaceFirst raw4 REPLACE_KEYS.GitBranch
          ((if ctx.selectedRepo then ctx.headBranchName else none).getD FAKE_EMPTY)
      else replaceFirst raw4 REPLACE_KEYS.GitBranch UNKNOWN_GIT_BRANCH
    else raw4
  let raw6 :=
    if strIncludes raw5 REPLACE_KEYS.GitRepoName then
      if ctx.hasGitRepos then
        replaceFirst raw5 REPLACE_KEYS.GitRepoName ((repoNameChain ctx).getD FAKE_EMPTY)
      else replaceFirst raw5 REPLACE_KEYS.GitRepoName UNKNOWN_GIT_REPO_NAME
    else raw5
  raw6

/-- `workspaceFolderName` in `details`: `workspaceFolder?.name ?? 'No workspace'`. -/
def wsFolderNameOf (ctx : DetailsCtx) : Str := ctx.workspaceFolder.getD "No workspace".toList

/-- `workspaceName` in `details`:
`workspace.name?.replace(REPLACE_KEYS.VSCodeWorkspace, EMPTY) ?? workspaceFolderName`. -/
def wsNameOf (ctx : DetailsCtx) : Str :=
  match ctx.wsName with
  | some s => replaceFirst s REPLACE_KEYS.VSCodeWorkspace EMPTY
  | none => wsFolderNameOf ctx

/-- `workspaceAndFolder` in `details`. -/
def wsAndFolderOf (ctx : DetailsCtx) : Str :=
  wsNameOf ctx ++ (if wsFolderNameOf ctx = FAKE_EMPTY then [] else " - ".toList ++ wsFolderNameOf ctx)

/-- The `{full_dir_name}` replacement value:
`` `${name}${sep}${relativePath.join(sep)}` `` after `relativePath.splice(-1, 1)`. -/
def fullDirValueOf (name : Str) (ctx : DetailsCtx) : Str :=
  name ++ [pathSep] ++ List.intercalate [pathSep] ctx.relativePathSegments.dropLast

/-- Model of `details` in `activity.ts`; the three template strings are the
configured `detailsIdling` / `detailsEditing` / `detailsDebugging` values. -/
def details (idling editing debugging : Str) (ctx : DetailsCtx) : Str :=
  let raw := replaceFirst idling REPLACE_KEYS.Empty FAKE_EMPTY
  if ctx.hasActiveEditor then
    let raw := if ctx.isDebugging then debugging else editing
    let raw :=
      match ctx.workspaceFolder with
      | some name => replaceFirst raw REPLACE_KEYS.FullDirName (fullDirValueOf name ctx)
      | none => raw
    let raw := fileDetails raw ctx
    let raw := replaceFirst raw REPLACE_KEYS.FileName ctx.fileName
    let raw := replaceFirst raw REPLACE_KEYS.DirName ctx.dirName
    let raw := replaceFirst raw REPLACE_KEYS.Workspace (wsNameOf ctx)
    let raw := replaceFirst raw REPLACE_KEYS.WorkspaceFolder (wsFolderNameOf ctx)
    let raw := replaceFirst raw REPLACE_KEYS.WorkspaceAndFolder (wsAndFolderOf ctx)
    let raw := replaceFirst raw REPLACE_KEYS.LanguageLowerCase (toLower ctx.fileIcon)
    let raw := replaceFirst raw REPLACE_KEYS.LanguageTitleCase (toTitle ctx.fileIcon)
    let raw := replaceFirst raw REPLACE_KEYS.LanguageUpperCase (toUpper ctx.fileIcon)
    raw
  else raw

/-! ## Presence snapshots (`activity.ts`, `activity`) -/

/-- The `StatusPayload` interface of `activity.ts` (all fields optional). -/
structure StatusPayload where
  details : Option Str := none
  stateField : Option Str := none
  fileName : Option Str := none
  language : Option Str := none
  languageIcon : Option Str := none
  workspaceField : Option Str := none
  timestamp : Option Nat := none
  isDebugging : Option Bool := none
  gitBranch : Option Str := none
  gitRepo : Option Str := none
  appName : Option Str := none
deriving DecidableEq

/-- Ambient facts consumed by one `activity` capture. -/
structure ActivityCtx where
  dctx : DetailsCtx
  appNameVal : Str
  captureNow : Nat
  idlingTemplate : Str
  editingTemplate : Str
  debuggingTemplate : Str
deriving DecidableEq

/-- The `languageIcon` URL built by `activity`. -/
def languageIconUrl (lang : Str) : Str :=
  "https://raw.githubusercontent.com/PowerPCFan/vscode-status-extension/refs/heads/main/assets/icons/".toList
    ++ lang ++ ".png".toList

/-- Model of `activity` in `activity.ts`. -/
def activity (previous : StatusPayload) (a : ActivityCtx) : StatusPayload :=
  let detailsVal := details a.idlingTemplate a.editingTemplate a.debuggingTemplate a.dctx
  let state0 : StatusPayload :=
    { details := some detailsVal,
      timestamp := some (previous.timestamp.getD a.captureNow),
      appName := some a.appNameVal,
      isDebugging := some a.dctx.isDebugging }
  let state1 :=
    if a.dctx.hasGitRepos && a.dctx.selectedRepo then
      { state0 with
        gitBranch := some (a.dctx.headBranchName.getD UNKNOWN_GIT_BRANCH),
        gitRepo := some ((repoNameChain a.dctx).getD UNKNOWN_GIT_REPO_NAME) }
    else state0
  if a.dctx.hasActiveEditor then
    { state1 with
      details := some detailsVal,
      fileName := some a.dctx.fileName,
      language := some a.dctx.fileIcon,
      languageIcon := some (languageIconUrl a.dctx.fileIcon),
      workspaceField := some (a.dctx.wsName.getD (wsFolderNameOf a.dctx)) }
  else state1

/-- The wire form of one status update. -/
structure OutgoingStatus where
  timestamp : Nat
  userId : Str
  data : StatusPayload
deriving DecidableEq

/-- The payload literal `{ timestamp: now, userId: userId, ...statusData }` in
`sendStatusToAPI`: the object spread writes `statusData`'s own keys after the
`timestamp` and `userId` keys, so a `timestamp` present in `statusData`
overwrites the freshly computed `now`. -/
def buildStatusPayload (now : Nat) (userId : Str) (statusData : StatusPayload) : OutgoingStatus :=
  { timestamp := statusData.timestamp.getD now, userId := userId, data := statusData }

/-! ## The submission protocol (`apiClient.ts` and `sendStatusToAPI`)

One call of `sendStatusToAPI` performs up to three HTTP calls (first status
POST, registration POST, retried status POST).  The network's behaviour for
those three calls is an input (`Script`); the observable outcome of the
cycle is the number of calls actually issued, the user-visible
notifications in order, and the final status-bar state.  The user's
response to an actionable dialog (and the commands it would run) is outside
the cycle and not modelled; the transient status-bar texts assigned before
the final `throw` are superseded by the `catch` handler's assignment and
only the final one is recorded. -/

/-- An HTTP response as seen through node-fetch: status code, status text,
and the `error` field of the parsed JSON body when present. -/
structure Resp where
  status : Nat
  statusText : Str
  errorBody : Option Str
deriving DecidableEq

/-- node-fetch `Response.ok`: status in the range 200–299. -/
def Resp.ok (r : Resp) : Bool := 200 ≤ r.status && r.status < 300

/-- Outcome of one `fetch`: a response, or a rejected promise whose error
message is `msg`. -/
inductive Fetched
  | resp (r : Resp)
  | netErr (msg : Str)
deriving DecidableEq

/-- Network behaviour for the up-to-three HTTP calls of one cycle. -/
structure Script where
  firstPost : Fetched
  registerResult : Fetched
  retryPost : Fetched
deriving DecidableEq

/-- A user-visible notification. -/
inductive Note
  | info (msg : Str)
  | errMsg (msg : Str)
  | errChoice (msg : Str) (actions : List Str)
deriving DecidableEq

/-- Whether a notification is an error notification (information messages
are not). -/
def Note.isErrorNote : Note → Bool
  | .info _ => false
  | .errMsg _ => true
  | .errChoice _ _ => true

/-- Observable outcome of one `sendStatusToAPI` cycle. -/
structure CycleOutcome where
  postCalls : Nat
  registerCalls : Nat
  notes : List Note
  barText : Str
  barRetryable : Bool
deriving DecidableEq

/-- `errorMessage` for a non-ok response: the body's `error` field if it
parses, else `` `API returned status ${response.status}: ${response.statusText}` ``. -/
def errMessageOf (r : Resp) : Str :=
  r.errorBody.getD ("API returned status ".toList ++ natToStr r.status ++ ": ".toList ++ r.statusText)

/-- The outer `catch` block of `sendStatusToAPI`: classify the error message
by substring and finish the cycle. -/
def catchBranch (suppress : Bool) (msg : Str) (postCalls registerCalls : Nat)
    (notes0 : List Note) : CycleOutcome :=
  if strIncludes msg "ECONNREFUSED".toList || strIncludes msg "ENOTFOUND".toList then
    { postCalls := postCalls, registerCalls := registerCalls,
      notes := notes0 ++ (if suppress then [] else
        [Note.errMsg "Cannot connect to API. Check your API URL in settings.".toList]),
      barText := "$(warning) Connection Failed".toList, barRetryable := true }
  else if strIncludes msg "timeout".toList || strIncludes msg "ETIMEDOUT".toList then
    { postCalls := postCalls, registerCalls := registerCalls, notes := notes0,
      barText := "$(clock) Request Timeout".toList, barRetryable := true }
  else if strIncludes msg "certificate".toList || strIncludes msg "SSL".toList
      || strIncludes msg "TLS".toList then
    { postCalls := postCalls, registerCalls := registerCalls,
      notes := notes0 ++ (if suppress then [] else
        [Note.errMsg ("SSL/TLS error connecting to API: ".toList ++ msg)]),
      barText := "$(warning) SSL Error".toList, barRetryable := true }
  else
    { postCalls := postCalls, registerCalls := registerCalls,
      notes := notes0 ++ (if suppress then [] else
        [Note.errMsg ("Failed to connect to the API: ".toList ++ msg)]),
      barText := "$(warning) API Connection Failed".toList, barRetryable := true }

/-- The `if (response.ok) { ... } else { switch ... ; throw }` tail of
`sendStatusToAPI`, applied to the final response of the cycle. -/
def finishResponse (suppress : Bool) (r : Resp) (postCalls registerCalls : Nat)
    (notes0 : List Note) : CycleOutcome :=
  if r.ok then
    { postCalls := postCalls, registerCalls := registerCalls, notes := notes0,
      barText := "$(globe) Connected to API".toList, barRetryable := false }
  else
    let em := errMessageOf r
    let sw : List Note × Bool :=
      if r.status = 401 then
        ((if suppress then [] else
          [Note.errChoice "API authentication failed. Your token may be invalid.".toList
            ["Generate New Token and User ID".toList]]), false)
      else if r.status = 429 then ([], false)
      else if r.status = 500 ∨ r.status = 502 ∨ r.status = 503 ∨ r.status = 504 then ([], true)
      else ([], true)
    let notes1 := notes0 ++ sw.1 ++
      (if sw.2 && !suppress then [Note.errMsg ("An API error occurred: ".toList ++ em)] else [])
    catchBranch suppress em postCalls registerCalls notes1

/-- Model of `sendStatusToAPI` in `extension.ts` (the register-then-retry
variant): the cycle outcome as a function of the network script.  Errors
thrown inside the registration `try` block — including errors of the
retried status POST — are rethrown with the `User registration failed: `
prefix before reaching the outer `catch`. -/
def sendStatusToAPI (suppress : Bool) (userId : Str) (sc : Script) : CycleOutcome :=
  match sc.firstPost with
  | .netErr m => catchBranch suppress m 1 0 []
  | .resp r1 =>
    if r1.status = 404 then
      match sc.registerResult with
      | .netErr m => catchBranch suppress ("User registration failed: ".toList ++ m) 1 1 []
      | .resp rr =>
        if rr.ok then
          let notes0 :=
            if suppress then [] else
              [Note.info ("Successfully registered with API as user ".toList ++ userId)]
          match sc.retryPost with
          | .netErr m =>
            catchBranch suppress ("User registration failed: ".toList ++ m) 2 1 notes0
          | .resp r2 => finishResponse suppress r2 2 1 notes0
        else if rr.status = 409 then
          match sc.retryPost with
          | .netErr m => catchBranch suppress ("User registration failed: ".toList ++ m) 2 1 []
          | .resp r2 => finishResponse suppress r2 2 1 []
        else
          catchBranch suppress
            ("User registration failed: Failed to register user. Status: ".toList
              ++ natToStr rr.status) 1 1 []
    else
      finishResponse suppress r1 1 0 []

/-! ## The update scheduler and connection flags (`extension.ts`)

Module-level mutable state of `extension.ts` is gathered into `Sys`.  Host
events and commands drive a step function; the only observable effects are
presence captures and status POSTs performed by `sendActivity`.  The lodash
throttle (`leading: false, trailing: true`) is modelled by a single pending
trailing invocation: calls set it, and the `throttleFire` event delivers it.
The `window.onDidChangeWindowState` subscription created in `activate` is
never stored in `listeners` nor in `context.subscriptions`, which the model
mirrors with the separate `windowHandlerActive` flag. -/

/-- Configuration facts fixed at activation (`config` is read at module
load in `extension.ts`, so the window-state handler sees these values). -/
structure SchedCfg where
  idleTimeout : Nat
  enabled : Bool
  workspaceExcluded : Bool
deriving DecidableEq

/-- Module-level mutable state of `extension.ts`. -/
structure Sys where
  disconnected : Bool
  listeners : Nat
  windowHandlerActive : Bool
  throttlePending : Bool
  idleRef : Option Nat
  liveIdle : List Nat
  nextTimer : Nat
  statusVisible : Bool
deriving DecidableEq

/-- Host events and commands delivered to the extension. -/
inductive Ev
  | editorEvent
  | focusGained
  | focusLost
  | throttleFire
  | idleFire (id : Nat)
  | cmdDisconnect
  | cmdReconnect
  | actDisable
deriving DecidableEq

/-- Observable effects of `sendActivity`: one presence capture
(`activity(state)`) and one status POST (`sendStatusToAPI`). -/
inductive Eff
  | capture
  | post
deriving DecidableEq

/-- `cleanUp` in `extension.ts`: dispose every listener in `listeners` and
empty the array.  Timers and the window-state handler are untouched. -/
def cleanUp (s : Sys) : Sys := { s with listeners := 0 }

/-- A call of the throttled wrapper `throttledSendActivity`: with
`leading: false, trailing: true` it only (re)arms the trailing invocation. -/
def throttledSendActivity (s : Sys) : Sys := { s with throttlePending := true }

/-- `sendActivity`: skips everything when `isDisconnectedFromAPI` is set,
otherwise captures a snapshot and POSTs it. -/
def sendActivity (s : Sys) : Sys × List Eff :=
  if s.disconnected then (s, []) else (s, [Eff.capture, Eff.post])

/-- `connect` in `extension.ts`: reset the disconnect flag, clean up,
schedule a throttled send, and subscribe the four editor/debug listeners. -/
def connect (s : Sys) : Sys :=
  { throttledSendActivity (cleanUp { s with disconnected := false }) with listeners := 4 }

/-- The `disable` closure in `activate` (with `update = false`): clean up
the listeners and hide the status bar item. -/
def disableAct (s : Sys) : Sys := { cleanUp s with statusVisible := false }

/-- The `enable` closure in `activate` (with `update = false`): clean up,
show the status bar item, and connect. -/
def enableAct (s : Sys) : Sys := connect { cleanUp s with statusVisible := true }

/-- One step of the event-driven scheduler. -/
def step (cfg : SchedCfg) (s : Sys) : Ev → Sys × List Eff
  | .editorEvent => if s.listeners ≠ 0 then (throttledSendActivity s, []) else (s, [])
  | .focusGained =>
    if s.windowHandlerActive && !(cfg.idleTimeout == 0) then
      (throttledSendActivity
        { s with liveIdle := match s.idleRef with
                             | some id => s.liveIdle.erase id
                             | none => s.liveIdle }, [])
    else (s, [])
  | .focusLost =>
    if s.windowHandlerActive && !(cfg.idleTimeout == 0) then
      ({ s with idleRef := some s.nextTimer, liveIdle := s.nextTimer :: s.liveIdle,
                nextTimer := s.nextTimer + 1 }, [])
    else (s, [])
  | .throttleFire =>
    if s.throttlePending then sendActivity { s with throttlePending := false } else (s, [])
  | .idleFire id =>
    if id ∈ s.liveIdle then ({ s with liveIdle := s.liveIdle.erase id }, []) else (s, [])
  | .cmdDisconnect => ({ s with disconnected := true }, [])
  | .cmdReconnect => (enableAct (disableAct { s with disconnected := false }), [])
  | .actDisable => (disableAct s, [])

/-- Run a sequence of events, accumulating effects in order. -/
def run (cfg : SchedCfg) : Sys → List Ev → Sys × List Eff
  | s, [] => (s, [])
  | s, e :: evs =>
    let p := step cfg s e
    let q := run cfg p.1 evs
    (q.1, p.2 ++ q.2)

/-- The state right after `activate` returns: credentials ensured, the
workspace-exclusion scan done, commands registered, `connect` called only
when enabled and not excluded, and the window-state handler registered
unconditionally. -/
def activateInit (cfg : SchedCfg) : Sys :=
  let base : Sys :=
    { disconnected := false, listeners := 0, windowHandlerActive := true,
      throttlePending := false, idleRef := none, liveIdle := [], nextTimer := 0,
      statusVisible := false }
  if !cfg.workspaceExcluded && cfg.enabled then { connect base with statusVisible := true }
  else base

/-! ## Sequential substitution as an association-list fold

`details` applies `replaceFirst` for a fixed sequence of token/value pairs.
`resolverTokens` lists those pairs in the order the code applies them. -/

/-- Left fold of `replaceFirst` over a token/value list. -/
def seqSubst (toks : List (Str × Str)) (s : Str) : Str :=
  toks.foldl (fun acc p => replaceFirst acc p.1 p.2) s

/-- The token/value pairs applied in the active-editor branch of `details`,
in source order. -/
def editorTokens (ctx : DetailsCtx) : List (Str × Str) :=
  (match ctx.workspaceFolder with
   | some name => [(REPLACE_KEYS.FullDirName, fullDirValueOf name ctx)]
   | none => []) ++
  [(REPLACE_KEYS.TotalLines, toLocaleString ctx.lineCountVal),
   (REPLACE_KEYS.CurrentLine, toLocaleString (ctx.cursorLine + 1)),
   (REPLACE_KEYS.CurrentColumn, toLocaleString (ctx.cursorChar + 1)),
   (REPLACE_KEYS.FileSize, fileSizeText ctx.fileSizeBytes),
   (REPLACE_KEYS.GitBranch,
     if ctx.hasGitRepos then (if ctx.selectedRepo then ctx.headBranchName else none).getD FAKE_EMPTY
     else UNKNOWN_GIT_BRANCH),
   (REPLACE_KEYS.GitRepoName,
     if ctx.hasGitRepos then (repoNameChain ctx).getD FAKE_EMPTY else UNKNOWN_GIT_REPO_NAME),
   (REPLACE_KEYS.FileName, ctx.fileName),
   (REPLACE_KEYS.DirName, ctx.dirName),
   (REPLACE_KEYS.Workspace, wsNameOf ctx),
   (REPLACE_KEYS.WorkspaceFolder, wsFolderNameOf ctx),
   (REPLACE_KEYS.WorkspaceAndFolder, wsAndFolderOf ctx),
   (REPLACE_KEYS.LanguageLowerCase, toLower ctx.fileIcon),
   (REPLACE_KEYS.LanguageTitleCase, toTitle ctx.fileIcon),
   (REPLACE_KEYS.LanguageUpperCase, toUpper ctx.fileIcon)]

/-- The token/value pairs the resolver applies for a given context:
the active-editor list, or just `{empty} ↦ FAKE_EMPTY` when idling. -/
def resolverTokens (ctx : DetailsCtx) : List (Str × Str) :=
  if ctx.hasActiveEditor then editorTokens ctx else [(REPLACE_KEYS.Empty, FAKE_EMPTY)]

/-- The template string the resolver starts from for a given context. -/
def startingTemplate (idling editing debugging : Str) (ctx : DetailsCtx) : Str :=
  if ctx.hasActiveEditor then (if ctx.isDebugging then debugging else editing) else idling

/-! ## Specification-side simultaneous substitution

The spec describes the resolver as producing "the template with every
recognized token replaced by its computed value; unrecognized text passes
through unchanged", independent of evaluation order and without
re-interpreting substituted values.  That is captured by viewing the
template as a list of pieces — literal segments and token occurrences —
and mapping each token piece to its value, leaving everything else
unchanged. -/

/-- A template piece: a literal segment or one token occurrence. -/
inductive Piece
  | lit (s : Str)
  | tok (t : Str)
deriving DecidableEq

/-- Concatenate the pieces back into the template string. -/
def renderTemplate : List Piece → Str
  | [] => []
  | .lit s :: ps => s ++ renderTemplate ps
  | .tok t :: ps => t ++ renderTemplate ps

/-- Value of token `t` under an association list; a token that is not
recognized stands for itself. -/
def lookupTok (toks : List (Str × Str)) (t : Str) : Str :=
  ((toks.find? fun p => p.1 == t).map Prod.snd).getD t

/-- Simultaneous substitution as described by the spec: every token piece is
replaced by its computed value, literal text passes through unchanged, and
substituted values are never re-interpreted. -/
def simultaneousSubst (toks : List (Str × Str)) : List Piece → Str
  | [] => []
  | .lit s :: ps => s ++ simultaneousSubst toks ps
  | .tok t :: ps => lookupTok toks t ++ simultaneousSubst toks ps

/-- A string without brace characters. -/
def braceFree (s : Str) : Bool := s.all fun c => !(c == '{' || c == '}')

/-- A well-formed token: an opening brace, a nonempty brace-free body, and a
closing brace. -/
def tokShape (t : Str) : Bool :=
  match t with
  | [] => false
  | c :: rest =>
    c == '{' && !rest.isEmpty && braceFree rest.dropLast && (rest.getLast? == some '}')

/-- A well-formed piece: a brace-free literal or a well-formed token. -/
def pieceOK : Piece → Bool
  | .lit s => braceFree s
  | .tok t => tokShape t

/-- The token pieces of a decomposition, in order. -/
def pieceTokens : List Piece → List Str
  | [] => []
  | .lit _ :: ps => pieceTokens ps
  | .tok t :: ps => t :: pieceTokens ps

/-- No element occurs twice. -/
def listNodupB : List Str → Bool
  | [] => true
  | x :: xs => !xs.contains x && listNodupB xs

/-- Replace the token piece `t` by the literal value `v`. -/
def replTok (t v : Str) (p : Piece) : Piece :=
  if p = Piece.tok t then Piece.lit v else p

/-! ## Specification-side unit index for file sizes

The spec chooses the unit "by repeatedly dividing by 1000 while the value
exceeds 1000"; after `k` divisions the exact value is `n / 1000 ^ k`, which
exceeds 1000 iff `1000 ^ (k + 1) < n`.  For `n ≤ 1000 ^ 5` the loop stops
within the five available units. -/

/-- The number of divisions the spec's loop performs for `n ≤ 1000 ^ 5`. -/
def specUnitIndex (n : Nat) : Nat :=
  if n ≤ 1000 then 0
  else if n ≤ 1000 ^ 2 then 1
  else if n ≤ 1000 ^ 3 then 2
  else if n ≤ 1000 ^ 4 then 3
  else 4

/-! ## Concrete contexts, scripts and states used in the theorems below -/

/-- A minimal active-editor context: file `a` in directory `d`, no git, no
workspace folder. -/
def ctxDup : DetailsCtx :=
  { hasActiveEditor := true, isDebugging := false, lineCountVal := 1, cursorLine := 0,
    cursorChar := 0, fileSizeBytes := 0, hasGitRepos := false, selectedRepo := false,
    headBranchName := none, remoteFetchUrl := none, fileName := "a".toList,
    dirName := "d".toList, workspaceFolder := none, wsName := none,
    relativePathSegments := [], fileIcon := "text".toList }

/-- An active-editor context whose file name is the three characters `ng}`
and whose resolved icon is `typescript`. -/
def ctxResub : DetailsCtx :=
  { ctxDup with fileName := "ng\x7d".toList, fileIcon := "typescript".toList }

/-- The template `{file_name} {file_name}` as pieces. -/
def psDup : List Piece :=
  [Piece.tok REPLACE_KEYS.FileName, Piece.lit " ".toList, Piece.tok REPLACE_KEYS.FileName]

/-- The template `{la{file_name}` as pieces: the literal `{la` followed by
one `{file_name}` occurrence. -/
def psResub : List Piece := [Piece.lit "\x7bla".toList, Piece.tok REPLACE_KEYS.FileName]

/-- The template `{file_name} in {dir_name}` as pieces. -/
def psBenign : List Piece :=
  [Piece.tok REPLACE_KEYS.FileName, Piece.lit " in ".toList, Piece.tok REPLACE_KEYS.DirName]

/-- A no-editor context with an active debug session. -/
def ctxNoEditorDebugging : DetailsCtx := { ctxDup with hasActiveEditor := false, isDebugging := true }

/-- Script: first POST 404, registration succeeds, retry succeeds. -/
def scRegisterRetry : Script :=
  { firstPost := Fetched.resp ⟨404, "Not Found".toList, none⟩,
    registerResult := Fetched.resp ⟨200, "OK".toList, none⟩,
    retryPost := Fetched.resp ⟨200, "OK".toList, none⟩ }

/-- Script: first POST 401 (register/retry never consulted). -/
def sc401 : Script :=
  { scRegisterRetry with firstPost := Fetched.resp ⟨401, "Unauthorized".toList, none⟩ }

/-- Script: first POST 409. -/
def sc409 : Script :=
  { scRegisterRetry with firstPost := Fetched.resp ⟨409, "Conflict".toList, none⟩ }

/-- Script: first POST 429. -/
def sc429 : Script :=
  { scRegisterRetry with firstPost := Fetched.resp ⟨429, "Too Many Requests".toList, none⟩ }

/-- Script: first POST 500. -/
def sc500 : Script :=
  { scRegisterRetry with firstPost := Fetched.resp ⟨500, "Internal Server Error".toList, none⟩ }

/-- Script: the first POST's promise rejects with a timeout error. -/
def scTimeout : Script :=
  { scRegisterRetry with firstPost := Fetched.netErr "connect ETIMEDOUT 192.0.2.1:443".toList }

/-- Activation configuration: idle timeout 300 s, enabled, workspace not
excluded. -/
def cfgStd : SchedCfg := { idleTimeout := 300, enabled := true, workspaceExcluded := false }

/-- Activation configuration: idle timeout 300 s, enabled, and some
workspace-exclusion pattern matched an open workspace root. -/
def cfgExcluded : SchedCfg := { idleTimeout := 300, enabled := true, workspaceExcluded := true }

/-- Invariant: at most one live idle timer, and `idle` references it. -/
def idleOK (s : Sys) : Prop :=
  s.liveIdle = [] ∨ ∃ id, s.liveIdle = [id] ∧ s.idleRef = some id

/-- Guard on event sequences: a focus-loss event is only fired when a
focus-gain event has happened since the previous focus loss (the Boolean
argument tracks whether a focus loss is currently allowed). -/
def lostGuard : Bool → List Ev → Bool
  | _, [] => true
  | b, Ev.focusLost :: r => b && lostGuard false r
  | _, Ev.focusGained :: r => lostGuard true r
  | b, _ :: r => lostGuard b r

/-- Whether the window-state handler acts for this configuration and state
(`config[CONFIG_KEYS.IdleTimeout] !== 0` and the handler is registered). -/
def idleHandlerActive (cfg : SchedCfg) (s : Sys) : Bool :=
  s.windowHandlerActive && !(cfg.idleTimeout == 0)

/-! # Theorems -/

/-! ## Scheduler lemmas -/

lemma step_preserves_disconnected (cfg : SchedCfg) (s : Sys) (e : Ev)
    (h : s.disconnected = true) (he : e ≠ Ev.cmdReconnect) :
    (step cfg s e).1.disconnected = true ∧ (step cfg s e).2 = [] := by
  cases e
  case cmdReconnect => exact absurd rfl he
  all_goals
    simp only [step, sendActivity, throttledSendActivity, disableAct, cleanUp]
    first
      | (split_ifs <;> simp_all)
      | simp_all

lemma run_disconnected (cfg : SchedCfg) :
    ∀ (evs : List Ev) (s : Sys), s.disconnected = true →
      (∀ e ∈ evs, e ≠ Ev.cmdReconnect) →
      (run cfg s evs).1.disconnected = true ∧ (run cfg s evs).2 = [] := by
  intro evs
  induction evs with
  | nil => intro s h _; simpa [run] using h
  | cons e evs ih =>
    intro s h hall
    have he := hall e (by simp)
    have hstep := step_preserves_disconnected cfg s e h he
    have hrest := ih (step cfg s e).1 hstep.1 (fun e' h' => hall e' (by simp [h']))
    simp [run, hstep.2, hrest.1, hrest.2]

/-- **C4.**  Once `isDisconnectedFromAPI` is set by the explicit disconnect
command, every scheduler-triggered event yields zero submissions —
`sendActivity` performs no presence capture and no HTTP post — and the flag
stays set under every event other than the explicit reconnect command. -/
theorem claim4_manual_disconnect_sticky :
    ∀ (cfg : SchedCfg) (s : Sys),
      (step cfg s Ev.cmdDisconnect).1.disconnected = true ∧
      ∀ (s' : Sys) (evs : List Ev), s'.disconnected = true →
        (∀ e ∈ evs, e ≠ Ev.cmdReconnect) →
        (run cfg s' evs).2 = [] ∧ (run cfg s' evs).1.disconnected = true := by
  intro cfg s
  refine ⟨rfl, fun s' evs h hall => ?_⟩
  have := run_disconnected cfg evs s' h hall
  exact ⟨this.2, this.1⟩

/-- Witness for C4 at a concrete disconnected state and event sequence. -/
theorem claim4_manual_disconnect_sticky_witness :
    ((step cfgStd (activateInit cfgStd) Ev.cmdDisconnect).1.disconnected = true) ∧
    (∀ e ∈ [Ev.editorEvent, Ev.throttleFire, Ev.focusGained, Ev.throttleFire],
      e ≠ Ev.cmdReconnect) ∧
    (run cfgStd (step cfgStd (activateInit cfgStd) Ev.cmdDisconnect).1
      [Ev.editorEvent, Ev.throttleFire, Ev.focusGained, Ev.throttleFire]).2 = [] := by
  refine ⟨(claim4_manual_disconnect_sticky cfgStd (activateInit cfgStd)).1, by decide, ?_⟩
  exact ((claim4_manual_disconnect_sticky cfgStd (activateInit cfgStd)).2 _ _
    (claim4_manual_disconnect_sticky cfgStd (activateInit cfgStd)).1 (by decide)).1

/-- **C5.**  The code evaluated at the failing input: with a matched
workspace-exclusion pattern the scheduler is never armed and the status
item is never shown, but the window-state handler is still registered, so a
window focus-gain event under a nonzero idle timeout arms the throttle and
its trailing invocation captures a snapshot and POSTs it. -/
theorem claim5_excluded_focus_submission :
    (activateInit cfgExcluded).listeners = 0 ∧
    (activateInit cfgExcluded).statusVisible = false ∧
    (activateInit cfgExcluded).windowHandlerActive = true ∧
    (run cfgExcluded (activateInit cfgExcluded) [Ev.focusGained, Ev.throttleFire]).2
      = [Eff.capture, Eff.post] := by
  decide

/-- **C6 (counterexample).**  After activation, the `disable` action leaves
the throttle's pending trailing invocation armed, so the trailing timer
firing after `disable` returned still captures and POSTs; and the
disconnect command releases no subscriptions at all. -/
theorem claim6_counterexample :
    (run cfgStd (activateInit cfgStd) [Ev.actDisable]).1.listeners = 0 ∧
    (run cfgStd (activateInit cfgStd) [Ev.actDisable]).1.throttlePending = true ∧
    (run cfgStd (activateInit cfgStd) [Ev.actDisable, Ev.throttleFire]).2
      = [Eff.capture, Eff.post] ∧
    (run cfgStd (activateInit cfgStd) [Ev.cmdDisconnect]).1.listeners = 4 := by
  decide

/-- **C6 (amended).**  `disable` synchronously disposes the event listener
subscriptions and performs no submission itself, but cancels neither the
pending throttle trailing invocation nor the live idle timers; `disconnect`
releases no subscriptions, yet after it returns no submission ever occurs
(every subsequent non-reconnect event yields no effects). -/
theorem claim6_amended_cancellation :
    ∀ (cfg : SchedCfg) (s : Sys),
      (step cfg s Ev.actDisable).1.listeners = 0 ∧
      (step cfg s Ev.actDisable).2 = [] ∧
      (step cfg s Ev.actDisable).1.throttlePending = s.throttlePending ∧
      (step cfg s Ev.actDisable).1.liveIdle = s.liveIdle ∧
      (step cfg s Ev.cmdDisconnect).1.listeners = s.listeners ∧
      ∀ evs, (∀ e ∈ evs, e ≠ Ev.cmdReconnect) →
        (run cfg (step cfg s Ev.cmdDisconnect).1 evs).2 = [] := by
  intro cfg s
  refine ⟨rfl, rfl, rfl, rfl, rfl, fun evs hall => ?_⟩
  exact (run_disconnected cfg evs _ rfl hall).2

/-- Witness for C6 at a concrete state and event sequence. -/
theorem claim6_amended_cancellation_witness :
    (step cfgStd (activateInit cfgStd) Ev.actDisable).1.listeners = 0 ∧
    (∀ e ∈ [Ev.editorEvent, Ev.throttleFire], e ≠ Ev.cmdReconnect) ∧
    (run cfgStd (step cfgStd (activateInit cfgStd) Ev.cmdDisconnect).1
      [Ev.editorEvent, Ev.throttleFire]).2 = [] := by
  refine ⟨(claim6_amended_cancellation cfgStd (activateInit cfgStd)).1, by decide, ?_⟩
  exact (claim6_amended_cancellation cfgStd (activateInit cfgStd)).2.2.2.2.2 _ (by decide)

lemma idleOK_mk (s s' : Sys) (hl : s'.liveIdle = s.liveIdle) (hr : s'.idleRef = s.idleRef)
    (h : idleOK s) : idleOK s' := by
  rcases h with h | ⟨id, h1, h2⟩
  · exact Or.inl (by rw [hl, h])
  · exact Or.inr ⟨id, by rw [hl, h1], by rw [hr, h2]⟩

lemma idleOK_erase (s : Sys) (h : idleOK s) (id : Nat) :
    idleOK { s with liveIdle := s.liveIdle.erase id } := by
  rcases h with h | ⟨x, h1, h2⟩
  · left; simp [h]
  · by_cases hx : x = id
    · left; simp [h1, hx]
    · right
      refine ⟨x, ?_, h2⟩
      simp [h1, List.erase_cons, hx]

lemma gained_clears (s : Sys) (h : idleOK s) :
    (match s.idleRef with
     | some id => s.liveIdle.erase id
     | none => s.liveIdle) = [] := by
  rcases h with h | ⟨x, h1, h2⟩
  · cases hr : s.idleRef <;> simp [h]
  · rw [h2, h1]; simp [List.erase_cons]

lemma step_preserves_wha (cfg : SchedCfg) (s : Sys) (e : Ev) :
    (step cfg s e).1.windowHandlerActive = s.windowHandlerActive := by
  cases e <;>
    simp only [step, sendActivity, throttledSendActivity, disableAct, enableAct, connect,
      cleanUp] <;>
    (split_ifs <;> rfl)

lemma run_idle_invariant (cfg : SchedCfg) :
    ∀ (evs : List Ev) (b : Bool) (s : Sys),
      idleOK s →
      (b = true → idleHandlerActive cfg s = true → s.liveIdle = []) →
      lostGuard b evs = true →
      idleOK (run cfg s evs).1 := by
  intro evs
  induction evs with
  | nil => intro b s h _ _; simpa [run] using h
  | cons e evs ih =>
    intro b s h hb hg
    cases e
    case editorEvent =>
      simp only [run, step]
      split_ifs with hc
      · exact ih b _ (idleOK_mk _ _ rfl rfl h) (fun h1 h2 => hb h1 h2) (by simpa [lostGuard] using hg)
      · exact ih b _ h hb (by simpa [lostGuard] using hg)
    case focusGained =>
      simp only [run, step]
      split_ifs with hc
      · refine ih true _ (Or.inl ?_) (fun _ _ => ?_) (by simpa [lostGuard] using hg)
        · simpa [throttledSendActivity] using gained_clears s h
        · simpa [throttledSendActivity] using gained_clears s h
      · refine ih true _ h (fun _ hact => absurd hact ?_) (by simpa [lostGuard] using hg)
        simpa [idleHandlerActive] using hc
    case focusLost =>
      have hg' : b = true ∧ lostGuard false evs = true := by
        simpa [lostGuard] using hg
      simp only [run, step]
      split_ifs with hc
      · have hemp : s.liveIdle = [] := hb hg'.1 (by simpa [idleHandlerActive] using hc)
        refine ih false _ (Or.inr ⟨s.nextTimer, ?_, rfl⟩) (by simp) hg'.2
        simp [hemp]
      · exact ih false _ h (by simp) hg'.2
    case throttleFire =>
      simp only [run, step, sendActivity]
      split_ifs with hc hd
      · exact ih b _ (idleOK_mk _ _ rfl rfl h) (fun h1 h2 => hb h1 h2) (by simpa [lostGuard] using hg)
      · exact ih b _ (idleOK_mk _ _ rfl rfl h) (fun h1 h2 => hb h1 h2) (by simpa [lostGuard] using hg)
      · exact ih b _ h hb (by simpa [lostGuard] using hg)
    case idleFire id =>
      simp only [run, step]
      split_ifs with hc
      · refine ih b _ (idleOK_erase s h id) (fun h1 h2 => ?_) (by simpa [lostGuard] using hg)
        have := hb h1 (by simpa [idleHandlerActive] using h2)
        simp [this]
      · exact ih b _ h hb (by simpa [lostGuard] using hg)
    case cmdDisconnect =>
      exact ih b _ (idleOK_mk _ _ rfl rfl h) (fun h1 h2 => hb h1 h2)
        (by simpa [lostGuard] using hg)
    case cmdReconnect =>
      exact ih b _ (idleOK_mk _ _ rfl rfl h) (fun h1 h2 => hb h1 h2)
        (by simpa [lostGuard] using hg)
    case actDisable =>
      exact ih b _ (idleOK_mk _ _ rfl rfl h) (fun h1 h2 => hb h1 h2)
        (by simpa [lostGuard] using hg)

lemma lostGuard_append (b : Bool) (pre suf : List Ev)
    (h : lostGuard b (pre ++ suf) = true) : lostGuard b pre = true := by
  induction pre generalizing b with
  | nil => rfl
  | cons e pre ih =>
    cases e
    case focusLost =>
      simp only [List.cons_append, lostGuard, Bool.and_eq_true] at h ⊢
      exact ⟨h.1, ih false h.2⟩
    case focusGained =>
      simp only [List.cons_append, lostGuard] at h ⊢
      exact ih true h
    all_goals
      simp only [List.cons_append, lostGuard] at h ⊢
      exact ih b h

/-- **C9 (counterexample).**  Two consecutive focus-loss events (no focus
gain in between) leave two live idle timers: starting a new idle timer does
not cancel the previously started one. -/
theorem claim9_counterexample :
    (run cfgStd (activateInit cfgStd) [Ev.focusLost, Ev.focusLost]).1.liveIdle = [1, 0] ∧
    (run cfgStd (activateInit cfgStd) [Ev.focusLost, Ev.focusLost]).1.liveIdle.length = 2 := by
  decide

/-- **C9 (amended).**  A focus-gain event cancels the referenced (most
recently started) idle timer, but starting a new idle timer on focus loss
does not cancel a previous one; consequently, at most one idle timer is
live at every point of any run in which a focus-gain occurs between
consecutive focus losses. -/
theorem claim9_amended_idle_timer :
    ∀ (cfg : SchedCfg) (s : Sys) (evs : List Ev),
      s.liveIdle = [] → lostGuard true evs = true →
      ∀ pre suf, evs = pre ++ suf →
        (run cfg s pre).1.liveIdle.length ≤ 1 := by
  intro cfg s evs h hg pre suf hsplit
  have hpre : lostGuard true pre = true := lostGuard_append true pre suf (hsplit ▸ hg)
  have hOK := run_idle_invariant cfg pre true s (Or.inl h) (fun _ _ => h) hpre
  rcases hOK with h1 | ⟨id, h1, _⟩ <;> simp [h1]

/-- Witness for C9 at a concrete alternating event sequence. -/
theorem claim9_amended_idle_timer_witness :
    (activateInit cfgStd).liveIdle = [] ∧
    lostGuard true [Ev.focusLost, Ev.focusGained, Ev.focusLost] = true ∧
    (run cfgStd (activateInit cfgStd)
      [Ev.focusLost, Ev.focusGained, Ev.focusLost]).1.liveIdle.length ≤ 1 := by
  refine ⟨rfl, by decide, ?_⟩
  exact claim9_amended_idle_timer cfgStd (activateInit cfgStd)
    [Ev.focusLost, Ev.focusGained, Ev.focusLost] rfl (by decide)
    [Ev.focusLost, Ev.focusGained, Ev.focusLost] [] (by simp)

/-- **C10.**  The `timestamp` actually POSTed equals the snapshot's
timestamp whenever the snapshot carries one — the fresh `Date.now()`
computed inside `sendStatusToAPI` is overridden by the object spread — and
the snapshot produced by `activity` always carries one (the previous
snapshot's timestamp when present, else the capture time), so the wire
payload does not depend on the fresh time at all. -/
theorem claim10_timestamp_passthrough :
    ∀ (snap : StatusPayload) (now now' : Nat) (uid : Str) (t : Nat),
      (snap.timestamp = some t → (buildStatusPayload now uid snap).timestamp = t) ∧
      ∀ (prev : StatusPayload) (a : ActivityCtx),
        (activity prev a).timestamp = some (prev.timestamp.getD a.captureNow) ∧
        buildStatusPayload now uid (activity prev a)
          = buildStatusPayload now' uid (activity prev a) := by
  intro snap now now' uid t
  constructor
  · intro h
    simp [buildStatusPayload, h]
  · intro prev a
    have hts : (activity prev a).timestamp = some (prev.timestamp.getD a.captureNow) := by
      simp only [activity]
      split_ifs <;> rfl
    exact ⟨hts, by simp [buildStatusPayload, hts]⟩

/-- Witness for C10 at a concrete snapshot carrying timestamp 42. -/
theorem claim10_timestamp_passthrough_witness :
    ({ timestamp := some 42 } : StatusPayload).timestamp = some 42 ∧
    (buildStatusPayload 99 "u".toList { timestamp := some 42 }).timestamp = 42 :=
  ⟨rfl, (claim10_timestamp_passthrough { timestamp := some 42 } 99 0 "u".toList 42).1 rfl⟩

/-! ## Protocol lemmas -/

lemma catchBranch_postCalls (sup : Bool) (m : Str) (p rc : Nat) (n0 : List Note) :
    (catchBranch sup m p rc n0).postCalls = p := by
  unfold catchBranch; split_ifs <;> rfl

lemma catchBranch_registerCalls (sup : Bool) (m : Str) (p rc : Nat) (n0 : List Note) :
    (catchBranch sup m p rc n0).registerCalls = rc := by
  unfold catchBranch; split_ifs <;> rfl

lemma finishResponse_postCalls (sup : Bool) (r : Resp) (p rc : Nat) (n0 : List Note) :
    (finishResponse sup r p rc n0).postCalls = p := by
  unfold finishResponse
  split_ifs <;> first | rfl | apply catchBranch_postCalls

lemma finishResponse_registerCalls (sup : Bool) (r : Resp) (p rc : Nat) (n0 : List Note) :
    (finishResponse sup r p rc n0).registerCalls = rc := by
  unfold finishResponse
  split_ifs <;> first | rfl | apply catchBranch_registerCalls

lemma finishResponse_ok (sup : Bool) (r : Resp) (p rc : Nat) (n0 : List Note)
    (h : r.ok = true) :
    finishResponse sup r p rc n0 =
      { postCalls := p, registerCalls := rc, notes := n0,
        barText := "$(globe) Connected to API".toList, barRetryable := false } := by
  unfold finishResponse
  rw [if_pos h]

/-- **C1.**  In every cycle whose first status POST returns 404, exactly one
registration POST is made; if registration succeeds (2xx) or returns 409,
the status POST is retried exactly once (two status POSTs in total), and
when the retried POST succeeds the cycle ends Connected with no
user-visible error notification; any other registration outcome is terminal
for the cycle (no retry: the cycle keeps exactly one status POST). -/
theorem claim1_register_retry_protocol :
    ∀ (suppress : Bool) (uid : Str) (sc : Script) (r1 : Resp),
      sc.firstPost = Fetched.resp r1 → r1.status = 404 →
      (sendStatusToAPI suppress uid sc).registerCalls = 1 ∧
      (∀ rr, sc.registerResult = Fetched.resp rr → (rr.ok = true ∨ rr.status = 409) →
        (sendStatusToAPI suppress uid sc).postCalls = 2 ∧
        ∀ r2, sc.retryPost = Fetched.resp r2 → r2.ok = true →
          (sendStatusToAPI suppress uid sc).barText = "$(globe) Connected to API".toList ∧
          (sendStatusToAPI suppress uid sc).notes.all (fun n => !n.isErrorNote) = true) ∧
      (∀ rr, sc.registerResult = Fetched.resp rr → rr.ok = false → rr.status ≠ 409 →
        (sendStatusToAPI suppress uid sc).postCalls = 1) ∧
      (∀ m, sc.registerResult = Fetched.netErr m →
        (sendStatusToAPI suppress uid sc).postCalls = 1) := by
  intro sup uid sc r1 hfp h404
  refine ⟨?_, ?_, ?_, ?_⟩
  · cases hreg : sc.registerResult with
    | netErr m =>
      simp [sendStatusToAPI, hfp, h404, hreg, catchBranch_registerCalls]
    | resp rr =>
      by_cases hok : rr.ok = true
      · cases hret : sc.retryPost with
        | netErr m =>
          simp [sendStatusToAPI, hfp, h404, hreg, hret, hok, catchBranch_registerCalls]
        | resp r2 =>
          simp [sendStatusToAPI, hfp, h404, hreg, hret, hok, finishResponse_registerCalls]
      · by_cases h409 : rr.status = 409
        · cases hret : sc.retryPost with
          | netErr m =>
            simp [sendStatusToAPI, hfp, h404, hreg, hret, hok, h409, catchBranch_registerCalls]
          | resp r2 =>
            simp [sendStatusToAPI, hfp, h404, hreg, hret, hok, h409,
              finishResponse_registerCalls]
        · simp [sendStatusToAPI, hfp, h404, hreg, hok, h409, catchBranch_registerCalls]
  · intro rr hreg hcase
    have hcase' : rr.ok = true ∨ (rr.ok = false ∧ rr.status = 409) := by
      rcases hcase with h | h
      · exact Or.inl h
      · by_cases hok : rr.ok = true
        · exact Or.inl hok
        · exact Or.inr ⟨by simpa using hok, h⟩
    rcases hcase' with hok | ⟨hok, h409⟩
    · constructor
      · cases hret : sc.retryPost with
        | netErr m =>
          simp [sendStatusToAPI, hfp, h404, hreg, hret, hok, catchBranch_postCalls]
        | resp r2 =>
          simp [sendStatusToAPI, hfp, h404, hreg, hret, hok, finishResponse_postCalls]
      · intro r2 hret hok2
        have : sendStatusToAPI sup uid sc = finishResponse sup r2 2 1
            (if sup then [] else
              [Note.info ("Successfully registered with API as user ".toList ++ uid)]) := by
          simp [sendStatusToAPI, hfp, h404, hreg, hret, hok]
        rw [this, finishResponse_ok sup r2 2 1 _ hok2]
        refine ⟨rfl, ?_⟩
        cases sup <;> simp [Note.isErrorNote]
    · constructor
      · cases hret : sc.retryPost with
        | netErr m =>
          simp [sendStatusToAPI, hfp, h404, hreg, hret, hok, h409, catchBranch_postCalls]
        | resp r2 =>
          simp [sendStatusToAPI, hfp, h404, hreg, hret, hok, h409, finishResponse_postCalls]
      · intro r2 hret hok2
        have : sendStatusToAPI sup uid sc = finishResponse sup r2 2 1 [] := by
          simp [sendStatusToAPI, hfp, h404, hreg, hret, hok, h409]
        rw [this, finishResponse_ok sup r2 2 1 _ hok2]
        exact ⟨rfl, rfl⟩
  · intro rr hreg hok h409
    simp [sendStatusToAPI, hfp, h404, hreg, hok, h409, catchBranch_postCalls]
  · intro m hreg
    simp [sendStatusToAPI, hfp, h404, hreg, catchBranch_postCalls]

/-- Witness for C1: concrete 404 / register-success / retry-success script. -/
theorem claim1_register_retry_protocol_witness :
    scRegisterRetry.firstPost = Fetched.resp ⟨404, "Not Found".toList, none⟩ ∧
    (sendStatusToAPI false "123".toList scRegisterRetry).registerCalls = 1 ∧
    (sendStatusToAPI false "123".toList scRegisterRetry).postCalls = 2 ∧
    (sendStatusToAPI false "123".toList scRegisterRetry).barText
      = "$(globe) Connected to API".toList ∧
    (sendStatusToAPI false "123".toList scRegisterRetry).notes.all
      (fun n => !n.isErrorNote) = true := by
  have h := claim1_register_retry_protocol false "123".toList scRegisterRetry
    ⟨404, "Not Found".toList, none⟩ rfl rfl
  have h2 := h.2.1 ⟨200, "OK".toList, none⟩ rfl (Or.inl (by decide))
  have h3 := h2.2 ⟨200, "OK".toList, none⟩ rfl (by decide)
  exact ⟨rfl, h.1, h2.1, h3.1, h3.2⟩

/-- **C7 (counterexample).**  A 429 (rate-limited) cycle does produce a
user-visible error notification: the error-path `throw` is caught by the
outer network-error handler, whose final `else` branch shows a generic
failure message even though the 429 switch case itself suppressed the
inner notification. -/
theorem claim7_counterexample :
    (sendStatusToAPI false "u".toList sc429).notes =
      [Note.errMsg
        "Failed to connect to the API: API returned status 429: Too Many Requests".toList] ∧
    (sendStatusToAPI false "u".toList sc429).notes ≠ [] := by
  decide

/-- **C7 (amended).**  Actual notification policy of a failed cycle: 401
surfaces the actionable choice dialog and no inner plain notification, 409
falls into the default switch case (plain notification, no dialog), 429 and
5xx suppress or emit their inner notification respectively — and, in every
HTTP-error case, the rethrown error message additionally reaches the
generic catch handler, which emits one more plain notification; a
network-level timeout emits none.  With notifications suppressed nothing
is shown. -/
theorem claim7_amended_notification_policy :
    ∀ b : Bool,
      (sendStatusToAPI b "u".toList sc401).notes = (if b then [] else
        [Note.errChoice "API authentication failed. Your token may be invalid.".toList
          ["Generate New Token and User ID".toList],
         Note.errMsg
           "Failed to connect to the API: API returned status 401: Unauthorized".toList]) ∧
      (sendStatusToAPI b "u".toList sc409).notes = (if b then [] else
        [Note.errMsg "An API error occurred: API returned status 409: Conflict".toList,
         Note.errMsg
           "Failed to connect to the API: API returned status 409: Conflict".toList]) ∧
      (sendStatusToAPI b "u".toList sc429).notes = (if b then [] else
        [Note.errMsg
          "Failed to connect to the API: API returned status 429: Too Many Requests".toList]) ∧
      (sendStatusToAPI b "u".toList sc500).notes = (if b then [] else
        [Note.errMsg
          "An API error occurred: API returned status 500: Internal Server Error".toList,
         Note.errMsg
           "Failed to connect to the API: API returned status 500: Internal Server Error".toList]) ∧
      (sendStatusToAPI b "u".toList scTimeout).notes = [] := by
  intro b
  cases b <;> decide

/-! ## Resolver lemmas -/

lemma strIncludes_nil_ne (pat : Str) (h : strIncludes [] pat = false) : pat ≠ [] := by
  intro hp
  rw [hp] at h
  simp [strIncludes, List.isEmpty] at h

lemma replaceFirst_not_includes (s pat rep : Str) (h : strIncludes s pat = false) :
    replaceFirst s pat rep = s := by
  have hpat : ¬ pat.isEmpty = true := by
    cases s with
    | nil => simpa [List.isEmpty_iff] using strIncludes_nil_ne pat h
    | cons c rest =>
      intro he
      rw [List.isEmpty_iff] at he
      simp [strIncludes, he, List.isPrefixOf] at h
  unfold replaceFirst
  rw [if_neg hpat]
  induction s with
  | nil => rfl
  | cons c rest ih =>
    simp only [strIncludes, Bool.or_eq_false_iff] at h
    unfold replaceFirstGo
    rw [if_neg (by simp [h.1]), ih h.2]

lemma ite_includes_replaceFirst (s pat rep : Str) :
    (if strIncludes s pat then replaceFirst s pat rep else s) = replaceFirst s pat rep := by
  by_cases h : strIncludes s pat = true
  · rw [if_pos h]
  · rw [if_neg (by simpa using h),
      replaceFirst_not_includes s pat rep (by simpa using h)]

lemma details_eq_seqSubst (idl edt dbg : Str) (ctx : DetailsCtx) :
    details idl edt dbg ctx
      = seqSubst (resolverTokens ctx) (startingTemplate idl edt dbg ctx) := by
  by_cases he : ctx.hasActiveEditor = true
  · by_cases hg : ctx.hasGitRepos = true
    · cases hwf : ctx.workspaceFolder <;>
        simp only [details, fileDetails, startingTemplate, resolverTokens, editorTokens,
          seqSubst, List.foldl, he, hg, hwf, if_true, if_pos, ite_includes_replaceFirst,
          List.nil_append, List.cons_append]
    · cases hwf : ctx.workspaceFolder <;>
        simp only [details, fileDetails, startingTemplate, resolverTokens, editorTokens,
          seqSubst, List.foldl, he, hg, hwf, if_true, if_false, Bool.false_eq_true,
          ite_includes_replaceFirst, List.nil_append, List.cons_append]
  · have he' : ctx.hasActiveEditor = false := by simpa using he
    simp only [details, startingTemplate, resolverTokens, he', Bool.false_eq_true, if_false,
      seqSubst, List.foldl]

/-- **C8 (counterexample).**  With a debug session active but no focused
document, the resolver uses the idling template, not the debugging one:
`details` returns the (token-free) idling template `I` and not the
debugging template `D`. -/
theorem claim8_counterexample :
    ctxNoEditorDebugging.isDebugging = true ∧
    details "I".toList "E".toList "D".toList ctxNoEditorDebugging = "I".toList ∧
    details "I".toList "E".toList "D".toList ctxNoEditorDebugging ≠ "D".toList := by
  decide

/-- **C8 (amended).**  Template selection: the debugging template is used
only when a document is focused and a debug session is active; the editing
template when a document is focused without a debug session; otherwise the
idling template (with only the `{empty}` marker replacement applied), even
if a debug session is active. -/
theorem claim8_amended_template_selection :
    ∀ (idl edt dbg : Str) (ctx : DetailsCtx),
      (ctx.hasActiveEditor = true → ctx.isDebugging = true →
        details idl edt dbg ctx = seqSubst (editorTokens ctx) dbg) ∧
      (ctx.hasActiveEditor = true → ctx.isDebugging = false →
        details idl edt dbg ctx = seqSubst (editorTokens ctx) edt) ∧
      (ctx.hasActiveEditor = false →
        details idl edt dbg ctx = replaceFirst idl REPLACE_KEYS.Empty FAKE_EMPTY) := by
  intro idl edt dbg ctx
  refine ⟨fun h1 h2 => ?_, fun h1 h2 => ?_, fun h1 => ?_⟩
  · rw [details_eq_seqSubst]
    simp [startingTemplate, resolverTokens, h1, h2]
  · rw [details_eq_seqSubst]
    simp [startingTemplate, resolverTokens, h1, h2]
  · rw [details_eq_seqSubst]
    simp [startingTemplate, resolverTokens, seqSubst, h1]

/-- Witness for C8 at concrete contexts for all three selection cases. -/
theorem claim8_amended_template_selection_witness :
    ctxNoEditorDebugging.hasActiveEditor = false ∧
    details "I".toList "E".toList "D".toList ctxNoEditorDebugging
      = replaceFirst "I".toList REPLACE_KEYS.Empty FAKE_EMPTY ∧
    ctxDup.hasActiveEditor = true ∧ ctxDup.isDebugging = false ∧
    details "I".toList "E".toList "D".toList ctxDup
      = seqSubst (editorTokens ctxDup) "E".toList := by
  refine ⟨rfl, ?_, rfl, rfl, ?_⟩
  · exact (claim8_amended_template_selection "I".toList "E".toList "D".toList
      ctxNoEditorDebugging).2.2 rfl
  · exact (claim8_amended_template_selection "I".toList "E".toList "D".toList
      ctxDup).2.1 rfl rfl

/-! ## File-size lemmas -/

lemma fsLoop_le (f : Nat) (q : Frac) (h : q.gt1000 = false) : fsLoop f q = (0, q) := by
  cases f <;> simp [fsLoop, h]

lemma fsLoop_eval : ∀ (k f num den : Nat), k ≤ f →
    (∀ j : Nat, j < k → 1000 * (den * 1000 ^ j) < num) →
    ¬ 1000 * (den * 1000 ^ k) < num →
    fsLoop f ⟨num, den⟩ = (k, ⟨num, den * 1000 ^ k⟩) := by
  intro k
  induction k with
  | zero =>
    intro f num den _ _ hstop
    have hq : Frac.gt1000 ⟨num, den⟩ = false := by
      simp only [Frac.gt1000, decide_eq_false_iff_not]
      simpa using hstop
    rw [fsLoop_le f _ hq]
    simp
  | succ k ih =>
    intro f num den hf hlt hstop
    obtain ⟨f', rfl⟩ : ∃ f', f = f' + 1 := ⟨f - 1, by omega⟩
    have h0 : Frac.gt1000 ⟨num, den⟩ = true := by
      have := hlt 0 (by omega)
      simp only [Frac.gt1000, decide_eq_true_eq]
      simpa using this
    have hlt' : ∀ j : Nat, j < k → 1000 * (den * 1000 * 1000 ^ j) < num := by
      intro j hj
      have := hlt (j + 1) (by omega)
      calc 1000 * (den * 1000 * 1000 ^ j) = 1000 * (den * 1000 ^ (j + 1)) := by ring
        _ < num := this
    have hstop' : ¬ 1000 * (den * 1000 * 1000 ^ k) < num := by
      intro hc
      apply hstop
      calc 1000 * (den * 1000 ^ (k + 1)) = 1000 * (den * 1000 * 1000 ^ k) := by ring
        _ < num := hc
    have := ih f' num (den * 1000) (by omega) hlt' hstop'
    simp only [fsLoop, h0, if_true, Frac.div1000, this]
    refine Prod.ext rfl ?_
    show Frac.mk num (den * 1000 * 1000 ^ k) = Frac.mk num (den * 1000 ^ (k + 1))
    congr 1
    ring

lemma fileSizeText_eval (n : Nat) (h1000 : 1000 < n) (k : Nat) (hk1 : 1 ≤ k)
    (hlt : ∀ j : Nat, j < k → 1000 ^ (j + 1) < n) (hstop : n ≤ 1000 ^ (k + 1)) :
    fileSizeText n = toFixed2 ⟨n, 1000 ^ k⟩ ++ FILE_SIZES.getD k "undefined".toList := by
  obtain ⟨m, rfl⟩ : ∃ m, k = m + 1 := ⟨k - 1, by omega⟩
  have hfuel : m ≤ n := by
    have hm : m < 2 ^ m := Nat.lt_two_pow m
    have h2 : (2 : Nat) ^ m ≤ 1000 ^ m := Nat.pow_le_pow_left (by omega) m
    rcases Nat.eq_zero_or_pos m with h | h
    · omega
    · have := hlt m (by omega)
      have hup : 1000 ^ m ≤ 1000 ^ (m + 1) := Nat.pow_le_pow_right (by omega) (by omega)
      omega
  have hloop := fsLoop_eval m n n 1000 hfuel
    (by
      intro j hj
      have := hlt (j + 1) (by omega)
      calc 1000 * (1000 * 1000 ^ j) = 1000 ^ (j + 1 + 1) := by ring
        _ < n := this)
    (by
      intro hc
      have : 1000 ^ (m + 1 + 1) < n := by
        calc 1000 ^ (m + 1 + 1) = 1000 * (1000 * 1000 ^ m) := by ring
          _ < n := hc
      omega)
  have hden : (1000 : Nat) * 1000 ^ m = 1000 ^ (m + 1) := by ring
  simp only [fileSizeText, if_pos h1000, hloop, hden]

lemma pow1000_lt_n (k : Nat) (n : Nat) (h : 1000 ^ k < n) :
    ∀ j : Nat, j < k → 1000 ^ (j + 1) < n := by
  intro j hj
  have : 1000 ^ (j + 1) ≤ 1000 ^ k := Nat.pow_le_pow_right (by omega) (by omega)
  omega

lemma le_pow1000 (k : Nat) (hk : 1 ≤ k) : (1000 : Nat) ≤ 1000 ^ k := by
  calc (1000 : Nat) = 1000 ^ 1 := (pow_one 1000).symm
    _ ≤ 1000 ^ k := Nat.pow_le_pow_right (by omega) hk

/-- **C3 (counterexample).**  At `n = 2 · 10^15` the division loop runs five
times and indexes past the end of `FILE_SIZES`; JavaScript renders the
out-of-range access as the text `undefined`, so the rendered unit is not
drawn from the unit list at all (no unit of the list is even a suffix of
the output). -/
theorem claim3_counterexample :
    fileSizeText 2000000000000000 = "2.00undefined".toList ∧
    FILE_SIZES.all (fun u => !(u.isSuffixOf (fileSizeText 2000000000000000))) = true := by
  decide

/-- **C3 (amended).**  For every byte count `n ≤ 1000^5`, the rendering
divides by 1000 exactly `specUnitIndex n` times — the least count after
which the value no longer exceeds 1000 — selects the unit at that index
from `FILE_SIZES`, and formats with two decimals exactly when `n > 1000`,
else as the bare integer; with the spec's concrete examples. -/
theorem claim3_amended_fileSize :
    (∀ n : Nat, n ≤ 1000 ^ 5 →
      specUnitIndex n ≤ 4 ∧
      n ≤ 1000 ^ (specUnitIndex n + 1) ∧
      (∀ j : Nat, j < specUnitIndex n → 1000 ^ (j + 1) < n) ∧
      FILE_SIZES.getD (specUnitIndex n) [] ∈ FILE_SIZES ∧
      fileSizeText n =
        (if 1000 < n then toFixed2 ⟨n, 1000 ^ specUnitIndex n⟩ else natToStr n)
          ++ FILE_SIZES.getD (specUnitIndex n) []) ∧
    fileSizeText 500 = "500 bytes".toList ∧
    fileSizeText 1500 = "1.50KB".toList ∧
    fileSizeText 2500000 = "2.50MB".toList ∧
    fileSizeText 1000 = "1000 bytes".toList := by
  refine ⟨?_, by decide, by decide, by decide, by decide⟩
  intro n hn
  have hn' : n ≤ 1000000000000000 := by norm_num at hn; omega
  by_cases h0 : n ≤ 1000
  · have hK : specUnitIndex n = 0 := by
      unfold specUnitIndex
      rw [if_pos h0]
    rw [hK]
    refine ⟨by omega, by norm_num; omega, by omega, by decide, ?_⟩
    rw [if_neg (by omega)]
    simp only [fileSizeText, if_neg (show ¬ 1000 < n by omega)]
    rfl
  · by_cases h1 : n ≤ 1000000
    · have hK : specUnitIndex n = 1 := by
        unfold specUnitIndex
        rw [if_neg h0, if_pos (by norm_num; omega)]
      rw [hK]
      have hlt : (1000 : Nat) ^ 1 < n := by norm_num; omega
      refine ⟨by omega, by norm_num; omega, pow1000_lt_n 1 n hlt, by decide, ?_⟩
      rw [if_pos (by omega),
        fileSizeText_eval n (by omega) 1 (by omega) (pow1000_lt_n 1 n hlt)
          (by norm_num; omega)]
      rfl
    · by_cases h2 : n ≤ 1000000000
      · have hK : specUnitIndex n = 2 := by
          unfold specUnitIndex
          rw [if_neg h0, if_neg (by norm_num; omega), if_pos (by norm_num; omega)]
        rw [hK]
        have hlt : (1000 : Nat) ^ 2 < n := by norm_num; omega
        refine ⟨by omega, by norm_num; omega, pow1000_lt_n 2 n hlt, by decide, ?_⟩
        rw [if_pos (by omega),
          fileSizeText_eval n (by omega) 2 (by omega) (pow1000_lt_n 2 n hlt)
            (by norm_num; omega)]
        rfl
      · by_cases h3 : n ≤ 1000000000000
        · have hK : specUnitIndex n = 3 := by
            unfold specUnitIndex
            rw [if_neg h0, if_neg (by norm_num; omega), if_neg (by norm_num; omega),
              if_pos (by norm_num; omega)]
          rw [hK]
          have hlt : (1000 : Nat) ^ 3 < n := by norm_num; omega
          refine ⟨by omega, by norm_num; omega, pow1000_lt_n 3 n hlt, by decide, ?_⟩
          rw [if_pos (by omega),
            fileSizeText_eval n (by omega) 3 (by omega) (pow1000_lt_n 3 n hlt)
              (by norm_num; omega)]
          rfl
        · have hK : specUnitIndex n = 4 := by
            unfold specUnitIndex
            rw [if_neg h0, if_neg (by norm_num; omega), if_neg (by norm_num; omega),
              if_neg (by norm_num; omega)]
          rw [hK]
          have hlt : (1000 : Nat) ^ 4 < n := by norm_num; omega
          refine ⟨by omega, by norm_num; omega, pow1000_lt_n 4 n hlt, by decide, ?_⟩
          rw [if_pos (by omega),
            fileSizeText_eval n (by omega) 4 (by omega) (pow1000_lt_n 4 n hlt)
              (by norm_num; omega)]
          rfl

/-- Witness for C3 at `n = 1500`. -/
theorem claim3_amended_fileSize_witness :
    (1500 ≤ 1000 ^ 5) ∧ specUnitIndex 1500 = 1 ∧
    fileSizeText 1500 =
      (if 1000 < 1500 then toFixed2 ⟨1500, 1000 ^ specUnitIndex 1500⟩ else natToStr 1500)
        ++ FILE_SIZES.getD (specUnitIndex 1500) [] := by
  refine ⟨by decide, by decide, ?_⟩
  exact ((claim3_amended_fileSize.1 1500 (by decide)).2.2.2.2)

/-! ## Sequential-equals-simultaneous substitution -/

lemma braceFree_mem (w : Str) (h : braceFree w = true) (c : Char) (hc : c ∈ w) :
    c ≠ '{' ∧ c ≠ '}' := by
  have := List.all_eq_true.mp h c hc
  simpa using this

lemma tokShape_elim (t : Str) (h : tokShape t = true) :
    ∃ w, t = '{' :: w ++ ['}'] ∧ braceFree w = true := by
  cases t with
  | nil => simp [tokShape] at h
  | cons c rest =>
    simp only [tokShape, Bool.and_eq_true, beq_iff_eq] at h
    obtain ⟨⟨⟨hc, hne⟩, hbf⟩, hlast⟩ := h
    have hrne : rest ≠ [] := by
      intro he
      rw [he] at hne
      simp at hne
    refine ⟨rest.dropLast, ?_, hbf⟩
    have hl : rest.getLast hrne = '}' := by
      have := List.getLast?_eq_getLast rest hrne
      rw [this] at hlast
      simpa using hlast
    rw [hc]
    congr 1
    rw [← hl]
    exact (List.dropLast_append_getLast hrne).symm

lemma braceFree_cons (c : Char) (s : Str) :
    braceFree (c :: s) = true ↔ (c ≠ '{' ∧ c ≠ '}') ∧ braceFree s = true := by
  simp [braceFree]

lemma tok_not_prefix_head (t : Str) (ht : tokShape t = true) (c : Char) (hc : c ≠ '{')
    (r : Str) : ¬ t <+: (c :: r) := by
  obtain ⟨w, rfl, _⟩ := tokShape_elim t ht
  intro hp
  rw [List.cons_append, List.cons_prefix_cons] at hp
  exact hc hp.1.symm

lemma braceFree_body_prefix :
    ∀ (w w' x y : Str), braceFree w = true → braceFree w' = true →
      (w' ++ '}' :: x) <+: (w ++ '}' :: y) → w' = w := by
  intro w
  induction w with
  | nil =>
    intro w' x y _ hw' hp
    cases w' with
    | nil => rfl
    | cons c w'' =>
      rw [List.nil_append, List.cons_append, List.cons_prefix_cons] at hp
      exact absurd hp.1 ((braceFree_cons c w'').mp hw').1.2
  | cons a ws ih =>
    intro w' x y hw hw' hp
    cases w' with
    | nil =>
      rw [List.nil_append, List.cons_append, List.cons_prefix_cons] at hp
      exact absurd hp.1 (Ne.symm ((braceFree_cons a ws).mp hw).1.2)
    | cons c w'' =>
      rw [List.cons_append, List.cons_append, List.cons_prefix_cons] at hp
      have hrec := ih w'' x y ((braceFree_cons a ws).mp hw).2
        ((braceFree_cons c w'').mp hw').2 hp.2
      rw [hp.1, hrec]

lemma tok_prefix_unique (t t' : Str) (ht : tokShape t = true) (ht' : tokShape t' = true)
    (y : Str) (h : t' <+: (t ++ y)) : t' = t := by
  obtain ⟨w, rfl, hw⟩ := tokShape_elim t ht
  obtain ⟨w', rfl, hw'⟩ := tokShape_elim t' ht'
  simp only [List.cons_append, List.append_assoc, List.singleton_append] at h
  rw [List.cons_prefix_cons] at h
  have : w' = w := by
    have h2 := h.2
    have : (w' ++ '}' :: ([] : Str)) <+: (w ++ '}' :: y) := by
      simpa using h2
    exact braceFree_body_prefix w w' [] y hw hw' this
  rw [this]

lemma replaceFirstGo_braceFree_append (t rep s y : Str) (ht : tokShape t = true)
    (hs : braceFree s = true) :
    replaceFirstGo t rep (s ++ y) = s ++ replaceFirstGo t rep y := by
  induction s with
  | nil => simp
  | cons c s' ih =>
    have hcp : ¬ t <+: (c :: (s' ++ y)) :=
      tok_not_prefix_head t ht c ((braceFree_cons c s').mp hs).1.1 _
    rw [List.cons_append]
    simp only [replaceFirstGo]
    rw [if_neg (fun hb => hcp (List.isPrefixOf_iff_prefix.mp hb)),
      ih ((braceFree_cons c s').mp hs).2, List.cons_append]

lemma replaceFirstGo_tok_append (t rep t'' y : Str) (ht : tokShape t = true)
    (ht'' : tokShape t'' = true) (hne : t ≠ t'') :
    replaceFirstGo t rep (t'' ++ y) = t'' ++ replaceFirstGo t rep y := by
  have h1 : ¬ t <+: (t'' ++ y) := fun hp => hne (tok_prefix_unique t'' t ht'' ht y hp)
  obtain ⟨w, rfl, hw⟩ := tokShape_elim t'' ht''
  simp only [List.cons_append, List.append_assoc, List.singleton_append,
    List.nil_append] at h1 ⊢
  simp only [replaceFirstGo]
  rw [if_neg (fun hb => h1 (List.isPrefixOf_iff_prefix.mp hb))]
  rw [replaceFirstGo_braceFree_append t rep w ('}' :: y) ht hw]
  have hbr : ¬ t <+: ('}' :: y) := tok_not_prefix_head t ht '}' (by decide) y
  simp only [replaceFirstGo]
  rw [if_neg (fun hb => hbr (List.isPrefixOf_iff_prefix.mp hb))]

lemma replaceFirstGo_at_tok (t rep : Str) (h : t ≠ []) (y : Str) :
    replaceFirstGo t rep (t ++ y) = rep ++ y := by
  cases t with
  | nil => exact absurd rfl h
  | cons c t' =>
    rw [List.cons_append]
    simp only [replaceFirstGo]
    rw [if_pos (by
      rw [List.isPrefixOf_iff_prefix, ← List.cons_append]
      exact List.prefix_append _ _)]
    rw [← List.cons_append, List.drop_left]

lemma map_replTok_id (t v : Str) (ps : List Piece) (h : Piece.tok t ∉ ps) :
    ps.map (replTok t v) = ps := by
  induction ps with
  | nil => rfl
  | cons p ps ih =>
    simp only [List.mem_cons, not_or] at h
    have hp : replTok t v p = p := by
      unfold replTok
      rw [if_neg (fun he => h.1 he.symm)]
    rw [List.map_cons, hp, ih h.2]

lemma tok_mem_pieceTokens (t : Str) (ps : List Piece) (h : Piece.tok t ∈ ps) :
    t ∈ pieceTokens ps := by
  induction ps with
  | nil => simp at h
  | cons p ps ih =>
    cases p with
    | lit s =>
      rcases List.mem_cons.mp h with he | hm
      · exact absurd he (by simp)
      · exact ih hm
    | tok u =>
      rcases List.mem_cons.mp h with he | hm
      · have : t = u := by
          injection he
        rw [this]
        exact List.mem_cons_self _ _
      · exact List.mem_cons_of_mem _ (ih hm)

lemma replaceFirstGo_render (t v : Str) (ht : tokShape t = true) :
    ∀ (ps : List Piece), (∀ p ∈ ps, pieceOK p = true) →
      listNodupB (pieceTokens ps) = true →
      replaceFirstGo t v (renderTemplate ps) = renderTemplate (ps.map (replTok t v)) := by
  intro ps
  induction ps with
  | nil => intro _ _; rfl
  | cons p ps ih =>
    intro hok hnodup
    cases p with
    | lit s =>
      have hbf : braceFree s = true := by simpa [pieceOK] using hok (Piece.lit s) (by simp)
      have hmap : replTok t v (Piece.lit s) = Piece.lit s := by
        unfold replTok
        rw [if_neg (by simp)]
      rw [List.map_cons, hmap]
      show replaceFirstGo t v (s ++ renderTemplate ps)
        = s ++ renderTemplate (List.map (replTok t v) ps)
      rw [replaceFirstGo_braceFree_append t v s _ ht hbf,
        ih (fun p hp => hok p (by simp [hp])) hnodup]
    | tok u =>
      have htu : tokShape u = true := by simpa [pieceOK] using hok (Piece.tok u) (by simp)
      have hnodup' : listNodupB (pieceTokens ps) = true ∧
          (pieceTokens ps).contains u = false := by
        have : listNodupB (u :: pieceTokens ps) = true := hnodup
        simp only [listNodupB, Bool.and_eq_true, Bool.not_eq_true'] at this
        exact ⟨this.2, this.1⟩
      by_cases hut : u = t
      · subst hut
        have hnotin : Piece.tok u ∉ ps := by
          intro hmem
          have hmemT := tok_mem_pieceTokens u ps hmem
          exact absurd hmemT (by simpa using hnodup'.2)
        have hmap : replTok u v (Piece.tok u) = Piece.lit v := by
          unfold replTok
          rw [if_pos rfl]
        rw [List.map_cons, hmap, map_replTok_id u v ps hnotin]
        show replaceFirstGo u v (u ++ renderTemplate ps) = v ++ renderTemplate ps
        exact replaceFirstGo_at_tok u v
          (by obtain ⟨w, rfl, _⟩ := tokShape_elim u htu; simp) _
      · have hmap : replTok t v (Piece.tok u) = Piece.tok u := by
          unfold replTok
          rw [if_neg (by simp [hut])]
        rw [List.map_cons, hmap]
        show replaceFirstGo t v (u ++ renderTemplate ps)
          = u ++ renderTemplate (List.map (replTok t v) ps)
        rw [replaceFirstGo_tok_append t v u _ ht htu (fun he => hut he.symm),
          ih (fun p hp => hok p (by simp [hp])) hnodup'.1]

lemma simultaneousSubst_nil (ps : List Piece) :
    simultaneousSubst [] ps = renderTemplate ps := by
  induction ps with
  | nil => rfl
  | cons p ps ih =>
    cases p with
    | lit s => simp [simultaneousSubst, renderTemplate, ih]
    | tok u => simp [simultaneousSubst, renderTemplate, lookupTok, ih]

lemma simul_map_replTok (toks : List (Str × Str)) (t v : Str) (ps : List Piece) :
    simultaneousSubst toks (ps.map (replTok t v)) = simultaneousSubst ((t, v) :: toks) ps := by
  induction ps with
  | nil => rfl
  | cons p ps ih =>
    cases p with
    | lit s =>
      have hmap : replTok t v (Piece.lit s) = Piece.lit s := by
        unfold replTok
        rw [if_neg (by simp)]
      rw [List.map_cons, hmap]
      show s ++ simultaneousSubst toks (ps.map (replTok t v))
        = s ++ simultaneousSubst ((t, v) :: toks) ps
      rw [ih]
    | tok u =>
      by_cases hu : u = t
      · subst hu
        have hmap : replTok u v (Piece.tok u) = Piece.lit v := by
          unfold replTok
          rw [if_pos rfl]
        rw [List.map_cons, hmap]
        show v ++ simultaneousSubst toks (ps.map (replTok u v))
          = lookupTok ((u, v) :: toks) u ++ simultaneousSubst ((u, v) :: toks) ps
        rw [ih]
        congr 1
        simp [lookupTok, List.find?]
      · have hmap : replTok t v (Piece.tok u) = Piece.tok u := by
          unfold replTok
          rw [if_neg (by simp [hu])]
        rw [List.map_cons, hmap]
        show lookupTok toks u ++ simultaneousSubst toks (ps.map (replTok t v))
          = lookupTok ((t, v) :: toks) u ++ simultaneousSubst ((t, v) :: toks) ps
        rw [ih]
        congr 1
        simp only [lookupTok, List.find?]
        rw [show ((t, v).1 == u) = false by simpa using fun he => hu he.symm]

lemma pieceTokens_map_replTok (t v : Str) (ps : List Piece) :
    pieceTokens (ps.map (replTok t v)) = (pieceTokens ps).filter (fun x => !(x == t)) := by
  induction ps with
  | nil => rfl
  | cons p ps ih =>
    cases p with
    | lit s =>
      have hmap : replTok t v (Piece.lit s) = Piece.lit s := by
        unfold replTok
        rw [if_neg (by simp)]
      rw [List.map_cons, hmap]
      show pieceTokens (ps.map (replTok t v)) = (pieceTokens ps).filter (fun x => !(x == t))
      exact ih
    | tok u =>
      by_cases hu : u = t
      · subst hu
        have hmap : replTok u v (Piece.tok u) = Piece.lit v := by
          unfold replTok
          rw [if_pos rfl]
        rw [List.map_cons, hmap]
        show pieceTokens (ps.map (replTok u v))
          = (u :: pieceTokens ps).filter (fun x => !(x == u))
        rw [ih, List.filter_cons]
        simp
      · have hmap : replTok t v (Piece.tok u) = Piece.tok u := by
          unfold replTok
          rw [if_neg (by simp [hu])]
        rw [List.map_cons, hmap]
        show u :: pieceTokens (ps.map (replTok t v))
          = (u :: pieceTokens ps).filter (fun x => !(x == t))
        rw [ih, List.filter_cons]
        simp [hu]

lemma listNodupB_iff (l : List Str) : listNodupB l = true ↔ l.Nodup := by
  induction l with
  | nil => simp [listNodupB]
  | cons x xs ih =>
    have hc : xs.contains x = true ↔ x ∈ xs := List.elem_iff
    simp only [listNodupB, Bool.and_eq_true, Bool.not_eq_true', List.nodup_cons, ih]
    constructor
    · intro ⟨h1, h2⟩
      refine ⟨fun hm => ?_, h2⟩
      rw [hc.mpr hm] at h1
      cases h1
    · intro ⟨h1, h2⟩
      refine ⟨?_, h2⟩
      by_contra hne
      simp only [Bool.not_eq_false] at hne
      exact h1 (hc.mp hne)

lemma seqSubst_eq_simultaneous :
    ∀ (toks : List (Str × Str)) (ps : List Piece),
      (∀ p ∈ toks, tokShape p.1 = true) →
      (∀ p ∈ toks, braceFree p.2 = true) →
      (∀ p ∈ ps, pieceOK p = true) →
      listNodupB (pieceTokens ps) = true →
      seqSubst toks (renderTemplate ps) = simultaneousSubst toks ps := by
  intro toks
  induction toks with
  | nil =>
    intro ps _ _ _ _
    rw [simultaneousSubst_nil]
    rfl
  | cons tv toks ih =>
    intro ps htoks hvals hok hnodup
    have ht : tokShape tv.1 = true := htoks tv (by simp)
    have hv : braceFree tv.2 = true := hvals tv (by simp)
    have htne : ¬ tv.1.isEmpty = true := by
      obtain ⟨w, hw, _⟩ := tokShape_elim tv.1 ht
      rw [hw]
      simp
    have hstep : replaceFirst (renderTemplate ps) tv.1 tv.2
        = renderTemplate (ps.map (replTok tv.1 tv.2)) := by
      unfold replaceFirst
      rw [if_neg htne]
      exact replaceFirstGo_render tv.1 tv.2 ht ps hok hnodup
    have hok' : ∀ p ∈ ps.map (replTok tv.1 tv.2), pieceOK p = true := by
      intro p hp
      rw [List.mem_map] at hp
      obtain ⟨q, hq, rfl⟩ := hp
      unfold replTok
      split_ifs with hqt
      · simpa [pieceOK] using hv
      · exact hok q hq
    have hnodup' : listNodupB (pieceTokens (ps.map (replTok tv.1 tv.2))) = true := by
      rw [pieceTokens_map_replTok, listNodupB_iff]
      exact ((listNodupB_iff _).mp hnodup).filter _
    have hseq : seqSubst (tv :: toks) (renderTemplate ps)
        = seqSubst toks (replaceFirst (renderTemplate ps) tv.1 tv.2) := rfl
    rw [hseq, hstep,
      ih (ps.map (replTok tv.1 tv.2)) (fun p hp => htoks p (by simp [hp]))
        (fun p hp => hvals p (by simp [hp])) hok' hnodup',
      simul_map_replTok]

lemma resolverTokens_tokShape (ctx : DetailsCtx) :
    ∀ p ∈ resolverTokens ctx, tokShape p.1 = true := by
  intro p hp
  by_cases he : ctx.hasActiveEditor = true
  · cases hwf : ctx.workspaceFolder with
    | none =>
      simp only [resolverTokens, editorTokens, he, if_true, hwf, List.nil_append,
        List.mem_cons, List.not_mem_nil, or_false] at hp
      rcases hp with rfl | rfl | rfl | rfl | rfl | rfl | rfl | rfl | rfl | rfl | rfl | rfl
        | rfl | rfl <;> (dsimp only; decide)
    | some name =>
      simp only [resolverTokens, editorTokens, he, if_true, hwf, List.cons_append,
        List.nil_append, List.mem_cons, List.not_mem_nil, or_false] at hp
      rcases hp with rfl | rfl | rfl | rfl | rfl | rfl | rfl | rfl | rfl | rfl | rfl | rfl
        | rfl | rfl | rfl <;> (dsimp only; decide)
  · have he' : ctx.hasActiveEditor = false := by simpa using he
    simp only [resolverTokens, he', Bool.false_eq_true, if_false, List.mem_cons,
      List.not_mem_nil, or_false] at hp
    rw [hp]
    decide

/-- **C2 (counterexample).**  The resolver is not a simultaneous
substitution.  First: in the template `{file_name} {file_name}` with file
name `a` only the first occurrence is replaced (the output keeps a literal
`{file_name}`), while the simultaneous substitution replaces both.  Second:
in the template `{la{file_name}` with file name `ng}` the substituted value
merges with surrounding text into `{lang}`, which the later language
replacement re-substitutes to `typescript`, while the simultaneous
substitution leaves `{lang}` (a substituted value is never re-read). -/
theorem claim2_counterexample :
    renderTemplate psDup = "\x7bfile_name\x7d \x7bfile_name\x7d".toList ∧
    details "I".toList "\x7bfile_name\x7d \x7bfile_name\x7d".toList "D".toList ctxDup
      = "a \x7bfile_name\x7d".toList ∧
    simultaneousSubst (resolverTokens ctxDup) psDup = "a a".toList ∧
    "a \x7bfile_name\x7d".toList ≠ "a a".toList ∧
    renderTemplate psResub = "\x7bla\x7bfile_name\x7d".toList ∧
    details "I".toList "\x7bla\x7bfile_name\x7d".toList "D".toList ctxResub
      = "typescript".toList ∧
    simultaneousSubst (resolverTokens ctxResub) psResub = "\x7blang\x7d".toList ∧
    "typescript".toList ≠ "\x7blang\x7d".toList := by
  decide

/-- **C2 (amended).**  The resolver applies first-occurrence replacements
sequentially in a fixed order.  Whenever the selected template decomposes
into brace-free literal segments and token occurrences with no token
occurring twice, and every computed replacement value is brace-free, the
output equals the simultaneous substitution of the decomposition: every
token occurrence replaced by its value, unrecognized text unchanged,
independent of evaluation order and with no re-substitution. -/
theorem claim2_amended_simultaneous :
    ∀ (idl edt dbg : Str) (ctx : DetailsCtx) (ps : List Piece),
      startingTemplate idl edt dbg ctx = renderTemplate ps →
      (∀ p ∈ ps, pieceOK p = true) →
      listNodupB (pieceTokens ps) = true →
      (∀ p ∈ resolverTokens ctx, braceFree p.2 = true) →
      details idl edt dbg ctx = simultaneousSubst (resolverTokens ctx) ps := by
  intro idl edt dbg ctx ps htmpl hok hnodup hvals
  rw [details_eq_seqSubst, htmpl]
  exact seqSubst_eq_simultaneous (resolverTokens ctx) ps (resolverTokens_tokShape ctx)
    hvals hok hnodup

/-- Witness for C2 at the template `{file_name} in {dir_name}` in a
concrete context. -/
theorem claim2_amended_simultaneous_witness :
    startingTemplate "I".toList "\x7bfile_name\x7d in \x7bdir_name\x7d".toList "D".toList
      ctxDup = renderTemplate psBenign ∧
    (∀ p ∈ psBenign, pieceOK p = true) ∧
    listNodupB (pieceTokens psBenign) = true ∧
    (∀ p ∈ resolverTokens ctxDup, braceFree p.2 = true) ∧
    details "I".toList "\x7bfile_name\x7d in \x7bdir_name\x7d".toList "D".toList ctxDup
      = simultaneousSubst (resolverTokens ctxDup) psBenign := by
  refine ⟨by decide, by decide, by decide, by decide, ?_⟩
  exact claim2_amended_simultaneous _ _ _ ctxDup psBenign (by decide) (by decide) (by decide)
    (by decide)
